import Mathlib

/-!
# Flexer: the declaration reporter of `src/main.cpp`

A shallow embedding of the program in `src/main.cpp`:

* `FindNamedClassVisitor` with its three methods `VisitCXXFunctionDecl`,
  `VisitDecl` and `VisitCXXRecordDecl`;
* the part of `clang::RecursiveASTVisitor` the visitor inherits
  (`TraverseDecl`, `WalkUpFrom...`, the traversal of the children);
* `FindNamedClassConsumer::HandleTranslationUnit` and `main`.

The compiler front end is not part of the program.  What it hands over is an
input of the model: the declaration tree (`Decl`), the answers of the
`SourceManager` (`isInMainFile`, `getFilename`, `getFileOffset`, ...) and the
result of `runToolOnCode`'s parse (`FrontEnd`).

`llvm::outs()` is an explicit value: every visitor method returns the text it
writes together with its `bool` result, and the traversal returns the
sequence of method invocations (`Emit`), whose texts concatenated are the
bytes written to standard output (`stdoutOf`).
-/

namespace Flexer

/-! ## Declaration kinds (`clang/Basic/DeclNodes.td`) -/

/-- Concrete declaration kinds, the values of `Decl::Kind` (LLVM 17). -/
inductive Kind where
  | TranslationUnit
  | PragmaComment
  | PragmaDetectMismatch
  | ExternCContext
  | Namespace
  | UsingDirective
  | NamespaceAlias
  | Label
  | Typedef
  | TypeAlias
  | ObjCTypeParam
  | UnresolvedUsingTypename
  | Enum
  | Record
  | CXXRecord
  | ClassTemplateSpecialization
  | ClassTemplatePartialSpecialization
  | TemplateTypeParm
  | EnumConstant
  | UnresolvedUsingValue
  | IndirectField
  | Binding
  | OMPDeclareReduction
  | OMPDeclareMapper
  | MSGuid
  | UnnamedGlobalConstant
  | TemplateParamObject
  | Field
  | ObjCIvar
  | ObjCAtDefsField
  | MSProperty
  | Function
  | CXXDeductionGuide
  | CXXMethod
  | CXXConstructor
  | CXXDestructor
  | CXXConversion
  | Var
  | VarTemplateSpecialization
  | VarTemplatePartialSpecialization
  | ImplicitParam
  | ParmVar
  | Decomposition
  | OMPCapturedExpr
  | NonTypeTemplateParm
  | FunctionTemplate
  | ClassTemplate
  | VarTemplate
  | TypeAliasTemplate
  | TemplateTemplateParm
  | BuiltinTemplate
  | Concept
  | Using
  | UsingEnum
  | UsingPack
  | UsingShadow
  | ConstructorUsingShadow
  | UnresolvedUsingIfExists
  | ObjCMethod
  | ObjCCategory
  | ObjCProtocol
  | ObjCInterface
  | ObjCCategoryImpl
  | ObjCImplementation
  | ObjCProperty
  | ObjCCompatibleAlias
  | ImplicitConceptSpecialization
  | LinkageSpec
  | Export
  | ObjCPropertyImpl
  | FileScopeAsm
  | TopLevelStmt
  | AccessSpec
  | Friend
  | FriendTemplate
  | StaticAssert
  | Block
  | Captured
  | ClassScopeFunctionSpecialization
  | Import
  | OMPThreadPrivate
  | OMPAllocate
  | OMPRequires
  | Empty
  | RequiresExprBody
  | LifetimeExtendedTemporary
  | HLSLBuffer
deriving DecidableEq, Repr

/-- The text `Decl::getDeclKindName()` returns for a kind: the name of the
kind's class without the `Decl` suffix. -/
def Kind.getDeclKindName : Kind → String
  | .TranslationUnit => "TranslationUnit"
  | .PragmaComment => "PragmaComment"
  | .PragmaDetectMismatch => "PragmaDetectMismatch"
  | .ExternCContext => "ExternCContext"
  | .Namespace => "Namespace"
  | .UsingDirective => "UsingDirective"
  | .NamespaceAlias => "NamespaceAlias"
  | .Label => "Label"
  | .Typedef => "Typedef"
  | .TypeAlias => "TypeAlias"
  | .ObjCTypeParam => "ObjCTypeParam"
  | .UnresolvedUsingTypename => "UnresolvedUsingTypename"
  | .Enum => "Enum"
  | .Record => "Record"
  | .CXXRecord => "CXXRecord"
  | .ClassTemplateSpecialization => "ClassTemplateSpecialization"
  | .ClassTemplatePartialSpecialization => "ClassTemplatePartialSpecialization"
  | .TemplateTypeParm => "TemplateTypeParm"
  | .EnumConstant => "EnumConstant"
  | .UnresolvedUsingValue => "UnresolvedUsingValue"
  | .IndirectField => "IndirectField"
  | .Binding => "Binding"
  | .OMPDeclareReduction => "OMPDeclareReduction"
  | .OMPDeclareMapper => "OMPDeclareMapper"
  | .MSGuid => "MSGuid"
  | .UnnamedGlobalConstant => "UnnamedGlobalConstant"
  | .TemplateParamObject => "TemplateParamObject"
  | .Field => "Field"
  | .ObjCIvar => "ObjCIvar"
  | .ObjCAtDefsField => "ObjCAtDefsField"
  | .MSProperty => "MSProperty"
  | .Function => "Function"
  | .CXXDeductionGuide => "CXXDeductionGuide"
  | .CXXMethod => "CXXMethod"
  | .CXXConstructor => "CXXConstructor"
  | .CXXDestructor => "CXXDestructor"
  | .CXXConversion => "CXXConversion"
  | .Var => "Var"
  | .VarTemplateSpecialization => "VarTemplateSpecialization"
  | .VarTemplatePartialSpecialization => "VarTemplatePartialSpecialization"
  | .ImplicitParam => "ImplicitParam"
  | .ParmVar => "ParmVar"
  | .Decomposition => "Decomposition"
  | .OMPCapturedExpr => "OMPCapturedExpr"
  | .NonTypeTemplateParm => "NonTypeTemplateParm"
  | .FunctionTemplate => "FunctionTemplate"
  | .ClassTemplate => "ClassTemplate"
  | .VarTemplate => "VarTemplate"
  | .TypeAliasTemplate => "TypeAliasTemplate"
  | .TemplateTemplateParm => "TemplateTemplateParm"
  | .BuiltinTemplate => "BuiltinTemplate"
  | .Concept => "Concept"
  | .Using => "Using"
  | .UsingEnum => "UsingEnum"
  | .UsingPack => "UsingPack"
  | .UsingShadow => "UsingShadow"
  | .ConstructorUsingShadow => "ConstructorUsingShadow"
  | .UnresolvedUsingIfExists => "UnresolvedUsingIfExists"
  | .ObjCMethod => "ObjCMethod"
  | .ObjCCategory => "ObjCCategory"
  | .ObjCProtocol => "ObjCProtocol"
  | .ObjCInterface => "ObjCInterface"
  | .ObjCCategoryImpl => "ObjCCategoryImpl"
  | .ObjCImplementation => "ObjCImplementation"
  | .ObjCProperty => "ObjCProperty"
  | .ObjCCompatibleAlias => "ObjCCompatibleAlias"
  | .ImplicitConceptSpecialization => "ImplicitConceptSpecialization"
  | .LinkageSpec => "LinkageSpec"
  | .Export => "Export"
  | .ObjCPropertyImpl => "ObjCPropertyImpl"
  | .FileScopeAsm => "FileScopeAsm"
  | .TopLevelStmt => "TopLevelStmt"
  | .AccessSpec => "AccessSpec"
  | .Friend => "Friend"
  | .FriendTemplate => "FriendTemplate"
  | .StaticAssert => "StaticAssert"
  | .Block => "Block"
  | .Captured => "Captured"
  | .ClassScopeFunctionSpecialization => "ClassScopeFunctionSpecialization"
  | .Import => "Import"
  | .OMPThreadPrivate => "OMPThreadPrivate"
  | .OMPAllocate => "OMPAllocate"
  | .OMPRequires => "OMPRequires"
  | .Empty => "Empty"
  | .RequiresExprBody => "RequiresExprBody"
  | .LifetimeExtendedTemporary => "LifetimeExtendedTemporary"
  | .HLSLBuffer => "HLSLBuffer"

/-- The proper base classes of a kind's class strictly between `Decl` and the
class itself, outermost first, each named without the `Decl` suffix
(`CXXRecordDecl : RecordDecl : TagDecl : TypeDecl : NamedDecl : Decl`). -/
def Kind.bases : Kind → List String
  | .TranslationUnit | .PragmaComment | .PragmaDetectMismatch | .ExternCContext
  | .ImplicitConceptSpecialization | .LinkageSpec | .Export | .ObjCPropertyImpl
  | .FileScopeAsm | .TopLevelStmt | .AccessSpec | .Friend | .FriendTemplate
  | .StaticAssert | .Block | .Captured | .ClassScopeFunctionSpecialization
  | .Import | .OMPThreadPrivate | .OMPAllocate | .OMPRequires | .Empty
  | .RequiresExprBody | .LifetimeExtendedTemporary => []
  | .Namespace | .UsingDirective | .NamespaceAlias | .Label | .UsingPack
  | .UsingShadow | .UnresolvedUsingIfExists | .ObjCMethod | .ObjCProperty
  | .ObjCCompatibleAlias | .HLSLBuffer => ["Named"]
  | .ConstructorUsingShadow => ["Named", "UsingShadow"]
  | .Using | .UsingEnum => ["Named", "BaseUsing"]
  | .Typedef | .TypeAlias | .ObjCTypeParam => ["Named", "Type", "TypedefName"]
  | .UnresolvedUsingTypename | .TemplateTypeParm => ["Named", "Type"]
  | .Enum | .Record => ["Named", "Type", "Tag"]
  | .CXXRecord => ["Named", "Type", "Tag", "Record"]
  | .ClassTemplateSpecialization => ["Named", "Type", "Tag", "Record", "CXXRecord"]
  | .ClassTemplatePartialSpecialization =>
      ["Named", "Type", "Tag", "Record", "CXXRecord", "ClassTemplateSpecialization"]
  | .EnumConstant | .UnresolvedUsingValue | .IndirectField | .Binding
  | .OMPDeclareReduction | .OMPDeclareMapper | .MSGuid | .UnnamedGlobalConstant
  | .TemplateParamObject => ["Named", "Value"]
  | .Field | .MSProperty | .Function | .Var | .NonTypeTemplateParm =>
      ["Named", "Value", "Declarator"]
  | .ObjCIvar | .ObjCAtDefsField => ["Named", "Value", "Declarator", "Field"]
  | .CXXDeductionGuide | .CXXMethod => ["Named", "Value", "Declarator", "Function"]
  | .CXXConstructor | .CXXDestructor | .CXXConversion =>
      ["Named", "Value", "Declarator", "Function", "CXXMethod"]
  | .VarTemplateSpecialization | .ImplicitParam | .ParmVar | .Decomposition
  | .OMPCapturedExpr => ["Named", "Value", "Declarator", "Var"]
  | .VarTemplatePartialSpecialization =>
      ["Named", "Value", "Declarator", "Var", "VarTemplateSpecialization"]
  | .FunctionTemplate | .ClassTemplate | .VarTemplate | .TypeAliasTemplate =>
      ["Named", "Template", "RedeclarableTemplate"]
  | .TemplateTemplateParm | .BuiltinTemplate | .Concept => ["Named", "Template"]
  | .ObjCCategory | .ObjCProtocol | .ObjCInterface => ["Named", "ObjCContainer"]
  | .ObjCCategoryImpl | .ObjCImplementation => ["Named", "ObjCContainer", "ObjCImpl"]

/-- The classes of a node of kind `k`, from `Decl` (written `""`, so that the
method name is `Visit ++ "" ++ Decl`) down to the kind's own class: the order
in which `WalkUpFrom<Kind>Decl` calls the `Visit...Decl` methods. -/
def Kind.classChain (k : Kind) : List String :=
  "" :: (k.bases ++ [k.getDeclKindName])

/-- Kinds whose class is `CXXRecordDecl` or derives from it. -/
def Kind.isCXXRecordClass : Kind → Bool
  | .CXXRecord | .ClassTemplateSpecialization | .ClassTemplatePartialSpecialization => true
  | _ => false

/-! ## Source locations and the source manager -/

/-- A `clang::SourceLocation`: an opaque handle (its raw encoding); `0` is the
invalid location. -/
structure SourceLocation where
  ID : Nat
deriving DecidableEq, Repr

/-- Whether the location is a valid one (`SourceLocation::isValid`). -/
def SourceLocation.isValid (l : SourceLocation) : Bool := l.ID != 0

/-- A `clang::SourceRange`. -/
structure SourceRange where
  B : SourceLocation
  E : SourceLocation
deriving DecidableEq, Repr

/-- Returns the begin location of the range (`SourceRange::getBegin`). -/
def SourceRange.getBegin (r : SourceRange) : SourceLocation := r.B

/-- Returns the end location of the range (`SourceRange::getEnd`). -/
def SourceRange.getEnd (r : SourceRange) : SourceLocation := r.E

/-- The queries of `clang::SourceManager` the program makes.  The source
manager belongs to the front end; its answers are taken as given. -/
structure SourceManager where
  isInMainFile : SourceLocation → Bool
  getFilename : SourceLocation → String
  getFileOffset : SourceLocation → Nat
  getSpellingLineNumber : SourceLocation → Nat
  getSpellingColumnNumber : SourceLocation → Nat

/-! ## Declaration nodes -/

/-- A declaration node as the program reads it: `getKind()`,
`getSourceRange()`, `getLocation()`, `isImplicit()`, `getNameAsString()`,
`getQualifiedNameAsString()`, `getType().getAsString()` (the three strings
are empty where the class of the node has no such member), and the
declarations directly below it in the tree of the front end:

* `children`, as the front end lists them: the members of its declaration
  context (`decls()`), its parameters and template parameters, the
  declaration a template declares, the declarations written in its body or
  initialiser; `Traverse<Kind>Decl` passes each of them to `TraverseDecl`, in
  this order;
* `instantiations`, the specialisations instantiated from the node when it is
  a template (`specializations()`); `Traverse<Kind>Decl` passes them to
  `TraverseDecl` only when `shouldVisitTemplateInstantiations()`. -/
inductive Decl where
  | mk (kind : Kind) (range : SourceRange) (location : SourceLocation)
      (isImplicit : Bool) (name : String) (qualifiedName : String)
      (type : String) (children : List Decl) (instantiations : List Decl)

namespace Decl

/-- The kind tag of the node (`Decl::getKind`). -/
def getKind : Decl → Kind
  | .mk k _ _ _ _ _ _ _ _ => k

/-- The kind name of the node (`Decl::getDeclKindName`). -/
def getDeclKindName (D : Decl) : String := D.getKind.getDeclKindName

/-- The source range of the node (`Decl::getSourceRange`). -/
def getSourceRange : Decl → SourceRange
  | .mk _ r _ _ _ _ _ _ _ => r

/-- The location of the node (`Decl::getLocation`). -/
def getLocation : Decl → SourceLocation
  | .mk _ _ l _ _ _ _ _ _ => l

/-- The begin location of the node (`Decl::getBeginLoc`). -/
def getBeginLoc (D : Decl) : SourceLocation := D.getSourceRange.getBegin

/-- Whether the front end made the node up (`Decl::isImplicit`). -/
def isImplicit : Decl → Bool
  | .mk _ _ _ i _ _ _ _ _ => i

/-- The declared name (`NamedDecl::getNameAsString`), possibly empty. -/
def getNameAsString : Decl → String
  | .mk _ _ _ _ n _ _ _ _ => n

/-- The qualified name (`NamedDecl::getQualifiedNameAsString`). -/
def getQualifiedNameAsString : Decl → String
  | .mk _ _ _ _ _ q _ _ _ => q

/-- The rendering of the declared type (`getType().getAsString()`). -/
def getTypeAsString : Decl → String
  | .mk _ _ _ _ _ _ t _ _ => t

/-- The declarations directly below the node that its traversal always
descends into, in order. -/
def children : Decl → List Decl
  | .mk _ _ _ _ _ _ _ cs _ => cs

/-- The specialisations instantiated from the node. -/
def instantiations : Decl → List Decl
  | .mk _ _ _ _ _ _ _ _ is => is

end Decl

/-- What the program uses of `clang::ASTContext`: the source manager and the
translation unit declaration. -/
structure ASTContext where
  srcMgr : SourceManager
  TUDecl : Decl

/-- Returns the source manager (`ASTContext::getSourceManager`). -/
def ASTContext.getSourceManager (C : ASTContext) : SourceManager := C.srcMgr

/-- Returns the root of the declaration tree
(`ASTContext::getTranslationUnitDecl`). -/
def ASTContext.getTranslationUnitDecl (C : ASTContext) : Decl := C.TUDecl

/-- Returns the location paired with the source manager
(`ASTContext::getFullLoc`); the pair is the location itself here, the source
manager being asked through the context. -/
def ASTContext.getFullLoc (_C : ASTContext) (Loc : SourceLocation) : SourceLocation := Loc

/-! ## `FindNamedClassVisitor` (main.cpp, lines 10-116) -/

/-- Method `FindNamedClassVisitor::VisitCXXFunctionDecl` (lines 39-63): the text
written to `llvm::outs()` and the returned `bool`. -/
def VisitCXXFunctionDecl (Context : ASTContext) (Declaration : Decl) : String × Bool :=
  let outs := Declaration.getQualifiedNameAsString ++ "\n"
  let outs :=
    if Declaration.getQualifiedNameAsString == "" && false then
      let FullLocation := Context.getFullLoc Declaration.getLocation
      let _StartFullLocation := Context.getFullLoc Declaration.getBeginLoc
      if FullLocation.isValid then
        outs ++ "Found declaration at "
          ++ toString (Context.getSourceManager.getSpellingLineNumber FullLocation) ++ ":"
          ++ toString (Context.getSourceManager.getSpellingColumnNumber FullLocation) ++ "\n"
      else outs
    else outs
  (outs, true)

/-- Method `FindNamedClassVisitor::VisitDecl` (lines 65-89): the text written to
`llvm::outs()` and the returned `bool`. -/
def VisitDecl (Context : ASTContext) (D : Decl) : String × Bool :=
  let k := D.getDeclKindName
  let r := D.getSourceRange
  let b := r.getBegin
  let e := r.getEnd
  let srcMgr := Context.getSourceManager
  if srcMgr.isInMainFile b then
    let fname := srcMgr.getFilename b
    let bOff := srcMgr.getFileOffset b
    let eOff := srcMgr.getFileOffset e
    let outs := k ++ "Decl "
    let outs := outs ++ "<" ++ fname ++ ", " ++ toString bOff ++ ", " ++ toString eOff ++ "> "
    let outs :=
      if D.getKind = Kind.Function then
        let fnDecl := D
        let outs := outs ++ fnDecl.getNameAsString ++ " "
        outs ++ "'" ++ fnDecl.getTypeAsString ++ "' "
      else if D.getKind = Kind.ParmVar then
        let pvDecl := D
        let outs := outs ++ pvDecl.getNameAsString ++ " "
        outs ++ "'" ++ pvDecl.getTypeAsString ++ "' "
      else outs
    (outs ++ "\n", true)
  else ("", true)

/-- Method `FindNamedClassVisitor::VisitCXXRecordDecl` (lines 91-115): the text
written to `llvm::outs()` and the returned `bool`. -/
def VisitCXXRecordDecl (Context : ASTContext) (Declaration : Decl) : String × Bool :=
  let outs := Declaration.getQualifiedNameAsString ++ "\n"
  let outs :=
    if Declaration.getQualifiedNameAsString == "" && false then
      let FullLocation := Context.getFullLoc Declaration.getLocation
      let _StartFullLocation := Context.getFullLoc Declaration.getBeginLoc
      if FullLocation.isValid then
        outs ++ "Found declaration at "
          ++ toString (Context.getSourceManager.getSpellingLineNumber FullLocation) ++ ":"
          ++ toString (Context.getSourceManager.getSpellingColumnNumber FullLocation) ++ "\n"
      else outs
    else outs
  (outs, true)

/-- A visitor class as `RecursiveASTVisitor` sees it: the `Visit...` methods the
class defines, by name (`none` for a name it does not define, where the base
supplies a method that writes nothing and returns `true`), and the three
switches of the traversal, which the base defines to return `false`. -/
structure Visitor where
  methods : String → Option (Decl → String × Bool)
  shouldVisitTemplateInstantiations : Bool
  shouldVisitImplicitCode : Bool
  shouldTraversePostOrder : Bool

/-- The class `FindNamedClassVisitor`: its three methods, under their names;
it defines none of the switches, so they are the base's. -/
def FindNamedClassVisitor (Context : ASTContext) : Visitor where
  methods := fun m =>
    if m = "VisitCXXFunctionDecl" then some (VisitCXXFunctionDecl Context)
    else if m = "VisitDecl" then some (VisitDecl Context)
    else if m = "VisitCXXRecordDecl" then some (VisitCXXRecordDecl Context)
    else none
  shouldVisitTemplateInstantiations := false
  shouldVisitImplicitCode := false
  shouldTraversePostOrder := false

/-! ## `clang::RecursiveASTVisitor`

`FindNamedClassVisitor` derives from `RecursiveASTVisitor<FindNamedClassVisitor>`
and overrides none of its `Traverse...`, `WalkUpFrom...` and `should...`
methods, so the traversal `HandleTranslationUnit` starts is the one of the
class template (`clang/AST/RecursiveASTVisitor.h`):

* `TraverseDecl(D)` returns `true` at once when `D` is implicit and
  `shouldVisitImplicitCode()` is `false`; otherwise it dispatches on
  `D->getKind()` to `Traverse<Kind>Decl(D)`;
* `Traverse<Kind>Decl(D)` calls `WalkUpFrom<Kind>Decl(D)` first unless
  `shouldTraversePostOrder()`, then `TraverseDecl` on the declarations below
  `D`, in order, on the instantiations of a template only when
  `shouldVisitTemplateInstantiations()`, and calls `WalkUpFrom<Kind>Decl(D)`
  last when `shouldTraversePostOrder()`;
* `WalkUpFrom<C>Decl(D)` calls `WalkUpFrom<Base>Decl(D)` for the base class of
  `C` and then `getDerived().Visit<C>Decl(D)`, `WalkUpFromDecl(D)` calling
  `getDerived().VisitDecl(D)`;
* every one of these calls is made through `TRY_TO`: a `false` result ends the
  traversal with `false`.
-/

/-- One invocation of a method of the visitor class: the method, the node it
was called on and the text it wrote to `llvm::outs()`. -/
structure Emit where
  method : String
  node : Decl
  text : String

/-- The bytes on standard output: the texts of the invocations, in order. -/
def stdoutOf (es : List Emit) : String :=
  String.join (es.map Emit.text)

/-- The methods `WalkUpFrom<Kind>Decl`: one call of `getDerived().Visit<C>Decl(D)`
for every class `C` of the node, from `Decl` down to the node's own class,
stopping with `false` as soon as one of the calls returns `false`. -/
def WalkUpFrom (V : Visitor) (D : Decl) : List String → List Emit × Bool
  | [] => ([], true)
  | c :: cs =>
    match V.methods ("Visit" ++ c ++ "Decl") with
    | none => WalkUpFrom V D cs
    | some visit =>
      let r := visit D
      if r.2 then
        let s := WalkUpFrom V D cs
        (⟨"Visit" ++ c ++ "Decl", D, r.1⟩ :: s.1, s.2)
      else ([⟨"Visit" ++ c ++ "Decl", D, r.1⟩], false)

mutual
/-- Method `RecursiveASTVisitor::TraverseDecl`, with `Traverse<Kind>Decl`
inlined: nothing for an implicit declaration unless
`shouldVisitImplicitCode()`; otherwise the walk up from the node (before its
children, or after them when `shouldTraversePostOrder()`), the traversal of
its children and, when `shouldVisitTemplateInstantiations()`, of its
instantiations. -/
def TraverseDecl (V : Visitor) : Decl → List Emit × Bool
  | .mk kind range location isImplicit name qualifiedName type children instantiations =>
    if !V.shouldVisitImplicitCode && isImplicit then ([], true)
    else
      let w :=
        if V.shouldTraversePostOrder then ([], true)
        else WalkUpFrom V
          (.mk kind range location isImplicit name qualifiedName type children instantiations)
          kind.classChain
      if w.2 then
        let c := TraverseDeclContextHelper V children
        if c.2 then
          let i :=
            if V.shouldVisitTemplateInstantiations then
              TraverseDeclContextHelper V instantiations
            else ([], true)
          if i.2 then
            let p :=
              if V.shouldTraversePostOrder then WalkUpFrom V
                (.mk kind range location isImplicit name qualifiedName type children
                  instantiations)
                kind.classChain
              else ([], true)
            (w.1 ++ (c.1 ++ (i.1 ++ p.1)), p.2)
          else (w.1 ++ (c.1 ++ i.1), false)
        else (w.1 ++ c.1, false)
      else (w.1, false)
/-- The loop over a list of declarations below a node, in order, which stops
with `false` as soon as the traversal of one of them returns `false`. -/
def TraverseDeclContextHelper (V : Visitor) : List Decl → List Emit × Bool
  | [] => ([], true)
  | Child :: rest =>
    let r := TraverseDecl V Child
    if r.2 then
      let s := TraverseDeclContextHelper V rest
      (r.1 ++ s.1, s.2)
    else (r.1, false)
end

/-! ## `FindNamedClassConsumer`, `FindNamedClassAction` and `main` -/

/-- The class `FindNamedClassConsumer`: it holds the visitor. -/
structure FindNamedClassConsumer where
  Visitor : Visitor

/-- The constructor `FindNamedClassConsumer(ASTContext *Context)`. -/
def FindNamedClassConsumer.new (Context : ASTContext) : FindNamedClassConsumer :=
  ⟨FindNamedClassVisitor Context⟩

/-- Method `FindNamedClassConsumer::HandleTranslationUnit` (lines 128-130). -/
def FindNamedClassConsumer.HandleTranslationUnit (self : FindNamedClassConsumer)
    (Context : ASTContext) : List Emit × Bool :=
  TraverseDecl self.Visitor Context.getTranslationUnitDecl

/-- Method `FindNamedClassAction::CreateASTConsumer` (lines 174-177), `Compiler`
standing for `Compiler.getASTContext()`. -/
def FindNamedClassAction.CreateASTConsumer (Compiler : ASTContext) : FindNamedClassConsumer :=
  FindNamedClassConsumer.new Compiler

/-- The invocations made for one translation unit: the consumer the action
creates for the context, run on that context. -/
def HandleTranslationUnit (Context : ASTContext) : List Emit × Bool :=
  (FindNamedClassAction.CreateASTConsumer Context).HandleTranslationUnit Context

/-- The front end behind `clang::tooling::runToolOnCode`: for a source text,
the context whose translation unit the consumer is handed (`none` when the
front end never reaches the consumer) and the `bool` the run ends with. -/
structure FrontEnd where
  parse : String → Option ASTContext
  succeeded : String → Bool

/-- Function `clang::tooling::runToolOnCode(action, code)` with the action of this
program: the text written to standard output and the returned `bool`. -/
def runToolOnCode (fe : FrontEnd) (code : String) : String × Bool :=
  match fe.parse code with
  | some Context => (stdoutOf (HandleTranslationUnit Context).1, fe.succeeded code)
  | none => ("", fe.succeeded code)

/-- The value of `EXIT_SUCCESS`. -/
def EXIT_SUCCESS : Int := 0

/-- The function `main` (lines 180-192): `argv` holds the `argc` arguments, the
program name first; the result is the text written to standard output and
the exit status. -/
def main (fe : FrontEnd) (argv : List String) : String × Int :=
  let argc := argv.length
  if argc > 1 then
    let r := runToolOnCode fe (argv.getD 1 "")
    (r.1, EXIT_SUCCESS)
  else ("", EXIT_SUCCESS)

/-! ## Concrete runs -/

/-- The source manager of a run on a text of `n` bytes that includes nothing
and expands no macro: location `i + 1` is offset `i` of the main file, which
`runToolOnCode` names `input.cc`. -/
def plainSourceManager (n : Nat) : SourceManager where
  isInMainFile l := decide (1 ≤ l.ID ∧ l.ID ≤ n + 1)
  getFilename l := if 1 ≤ l.ID ∧ l.ID ≤ n + 1 then "input.cc" else ""
  getFileOffset l := l.ID - 1
  getSpellingLineNumber _ := 1
  getSpellingColumnNumber l := l.ID

/-- A typedef the front end declares by itself at file scope: implicit, with
no valid location. -/
def implicitTypedefDecl (name type : String) : Decl :=
  .mk .Typedef ⟨⟨0⟩, ⟨0⟩⟩ ⟨0⟩ true name name type [] []

/-- The translation unit declaration: no valid location, the declarations at
file scope as children. -/
def translationUnit (decls : List Decl) : Decl :=
  .mk .TranslationUnit ⟨⟨0⟩, ⟨0⟩⟩ ⟨0⟩ false "" "" ""
    (implicitTypedefDecl "__int128_t" "__int128" ::
      implicitTypedefDecl "__builtin_va_list" "__va_list_tag[1]" :: decls) []

/-- Parameter `a` of `add`: `int a` at offsets 8 to 12. -/
def addParmA : Decl := .mk .ParmVar ⟨⟨9⟩, ⟨13⟩⟩ ⟨13⟩ false "a" "a" "int" [] []

/-- Parameter `b` of `add`: `int b` at offsets 15 to 19. -/
def addParmB : Decl := .mk .ParmVar ⟨⟨16⟩, ⟨20⟩⟩ ⟨20⟩ false "b" "b" "int" [] []

/-- The function `add`: offsets 0 to 38 (the closing brace). -/
def addFunction : Decl :=
  .mk .Function ⟨⟨1⟩, ⟨39⟩⟩ ⟨5⟩ false "add" "add" "int (int, int)" [addParmA, addParmB] []

/-- The run on the 39 bytes `int add(int a, int b) \x7b return a + b; \x7d`. -/
def addContext : ASTContext where
  srcMgr := plainSourceManager 39
  TUDecl := translationUnit [addFunction]

/-- The injected class name of `S`: an implicit record inside `S`, at offsets
0 to 7 of the main file. -/
def injectedClassName : Decl :=
  .mk .CXXRecord ⟨⟨1⟩, ⟨8⟩⟩ ⟨8⟩ true "S" "S::S" "" [] []

/-- The record `S` of `struct S \x7b\x7d;`: offsets 0 to 10. -/
def structRecord : Decl :=
  .mk .CXXRecord ⟨⟨1⟩, ⟨11⟩⟩ ⟨8⟩ false "S" "S" "" [injectedClassName] []

/-- The run on the 12 bytes `struct S \x7b\x7d;`. -/
def structContext : ASTContext where
  srcMgr := plainSourceManager 12
  TUDecl := translationUnit [structRecord]

/-- The source manager of a run whose main file has `n` bytes and which also
holds a second buffer that starts at location `base`: an included header
named `other`, or, with `other` empty and `expandedInMain` set, the tokens a
macro expands to at a place of the main file. -/
def twoBufferSourceManager (n base : Nat) (other : String) (expandedInMain : Bool) :
    SourceManager where
  isInMainFile l := decide (1 ≤ l.ID ∧ l.ID ≤ n + 1) || (decide (base ≤ l.ID) && expandedInMain)
  getFilename l :=
    if 1 ≤ l.ID ∧ l.ID ≤ n + 1 then "input.cc" else if base ≤ l.ID then other else ""
  getFileOffset l := if base ≤ l.ID then l.ID - base else l.ID - 1
  getSpellingLineNumber _ := 1
  getSpellingColumnNumber l := if base ≤ l.ID then l.ID - base + 1 else l.ID

/-- The record `S` of a header `s.h` that holds `struct S \x7b\x7d;`, the
buffer of the header starting at location 101. -/
def headerRecord : Decl :=
  .mk .CXXRecord ⟨⟨101⟩, ⟨111⟩⟩ ⟨108⟩ false "S" "S"  ""
    [.mk .CXXRecord ⟨⟨101⟩, ⟨108⟩⟩ ⟨108⟩ true "S" "S::S" "" [] []] []

/-- The run on the 15 bytes `#include "s.h"` and a newline. -/
def headerContext : ASTContext where
  srcMgr := twoBufferSourceManager 15 101 "./s.h" false
  TUDecl := translationUnit [headerRecord]

/-- The record `S` of `struct S \x7b END;` after `#define END \x7d`: it begins
at offset 14 of the main file and ends at the closing brace, which is the
first token of the expansion of `END` (location 200). -/
def macroRecord : Decl :=
  .mk .CXXRecord ⟨⟨15⟩, ⟨200⟩⟩ ⟨22⟩ false "S" "S" ""
    [.mk .CXXRecord ⟨⟨15⟩, ⟨22⟩⟩ ⟨22⟩ true "S" "S::S" "" [] []] []

/-- The run on the 29 bytes `#define END \x7d`, newline, `struct S \x7b END;`. -/
def macroContext : ASTContext where
  srcMgr := twoBufferSourceManager 29 200 "" true
  TUDecl := translationUnit [macroRecord]

/-- The record `S` that the main file opens with `struct S \x7b` at offset 0 and
a header `tail.h` closes: the header holds the member
`int a_rather_long_member_name_of_S;`, a newline and `\x7d;`, its buffer
starts at location 101, and the closing brace is at its offset 36. -/
def tailRecord : Decl :=
  .mk .CXXRecord ⟨⟨1⟩, ⟨137⟩⟩ ⟨8⟩ false "S" "S" ""
    [.mk .CXXRecord ⟨⟨1⟩, ⟨8⟩⟩ ⟨8⟩ true "S" "S::S" "" [] [],
     .mk .Field ⟨⟨101⟩, ⟨105⟩⟩ ⟨105⟩ false "a_rather_long_member_name_of_S"
       "S::a_rather_long_member_name_of_S" "int" [] []] []

/-- The run on the 29 bytes `struct S \x7b`, newline, `#include "tail.h"`,
newline. -/
def tailContext : ASTContext where
  srcMgr := twoBufferSourceManager 29 101 "./tail.h" false
  TUDecl := translationUnit [tailRecord]

/-- The second variable of a macro `M` that a header `m.h` defines as
`int first_variable_of_the_macro; int second;`: the main file invokes `M`,
the tokens of the expansion start at location 200, and `int second` is at
offsets 33 to 37 of the expansion. -/
def expandedVar : Decl :=
  .mk .Var ⟨⟨233⟩, ⟨237⟩⟩ ⟨237⟩ false "second" "second" "int" [] []

/-- The run on the 17 bytes `#include "m.h"`, newline, `M`, newline. -/
def expandedContext : ASTContext where
  srcMgr := twoBufferSourceManager 17 200 "" true
  TUDecl := translationUnit
    [.mk .Var ⟨⟨200⟩, ⟨204⟩⟩ ⟨204⟩ false "first_variable_of_the_macro"
      "first_variable_of_the_macro" "int" [] [], expandedVar]

/-- The member function `f` of `struct S \x7b void f(); \x7d;`: offsets 11 to
18 (the closing parenthesis). -/
def methodDecl : Decl :=
  .mk .CXXMethod ⟨⟨12⟩, ⟨19⟩⟩ ⟨17⟩ false "f" "S::f" "void ()" [] []

/-- The record `S` of `struct S \x7b void f(); \x7d;`: offsets 0 to 21. -/
def methodRecord : Decl :=
  .mk .CXXRecord ⟨⟨1⟩, ⟨22⟩⟩ ⟨8⟩ false "S" "S" ""
    [.mk .CXXRecord ⟨⟨1⟩, ⟨8⟩⟩ ⟨8⟩ true "S" "S::S" "" [] [], methodDecl] []

/-- The run on the 23 bytes `struct S \x7b void f(); \x7d;`. -/
def methodContext : ASTContext where
  srcMgr := plainSourceManager 23
  TUDecl := translationUnit [methodRecord]

/-- The unnamed parameter of `void f(int);`: offsets 7 to 7 (the one token
`int`), with an empty name. -/
def unnamedParm : Decl := .mk .ParmVar ⟨⟨8⟩, ⟨8⟩⟩ ⟨11⟩ false "" "" "int" [] []

/-- The run on the 12 bytes `void f(int);`. -/
def unnamedContext : ASTContext where
  srcMgr := plainSourceManager 12
  TUDecl := translationUnit
    [.mk .Function ⟨⟨1⟩, ⟨11⟩⟩ ⟨6⟩ false "f" "f" "void (int)" [unnamedParm] []]

/-- The record `S` of `typedef struct S \x7b\x7d T;`: offsets 8 to 18. -/
def typedefRecord : Decl :=
  .mk .CXXRecord ⟨⟨9⟩, ⟨19⟩⟩ ⟨16⟩ false "S" "S" ""
    [.mk .CXXRecord ⟨⟨9⟩, ⟨16⟩⟩ ⟨16⟩ true "S" "S::S" "" [] []] []

/-- The typedef `T` of `typedef struct S \x7b\x7d T;`: offsets 0 (the keyword
`typedef`) to 20. -/
def typedefDecl : Decl :=
  .mk .Typedef ⟨⟨1⟩, ⟨21⟩⟩ ⟨21⟩ false "T" "T" "" [] []

/-- The run on the 22 bytes `typedef struct S \x7b\x7d T;`: the front end
declares the record while it reads the specifiers of the typedef, so the
record comes first among the declarations of the translation unit. -/
def typedefContext : ASTContext where
  srcMgr := plainSourceManager 22
  TUDecl := translationUnit [typedefRecord, typedefDecl]

/-- A front end that parses the 39 bytes of the `add` example into
`addContext`, reaches the consumer for nothing else and reports failure. -/
def addFrontEnd : FrontEnd where
  parse code :=
    if code = "int add(int a, int b) \x7b return a + b; \x7d" then some addContext else none
  succeeded _ := false

/-! ## Vocabulary of the statements -/

/-- Whether the begin location of the node's source range is in the main
file, as `VisitDecl` asks the source manager. -/
def beginsInMainFile (Context : ASTContext) (D : Decl) : Bool :=
  Context.getSourceManager.isInMainFile D.getSourceRange.getBegin

/-- The file offset of the begin location of the node, the number by which a
declaration is earlier or later in source order. -/
def beginOffset (Context : ASTContext) (D : Decl) : Nat :=
  Context.getSourceManager.getFileOffset D.getSourceRange.getBegin

/-- An invocation of `VisitDecl`. -/
def Emit.isVisitDecl (e : Emit) : Bool := e.method == "VisitDecl"

/-- A kind line: a non-empty text written by an invocation of `VisitDecl`. -/
def Emit.isKindLine (e : Emit) : Bool := e.method == "VisitDecl" && e.text != ""

/-- The invocations `FindNamedClassVisitor` makes on one node it visits:
`VisitDecl`, and then `VisitCXXRecordDecl` when the class of the node is
`CXXRecordDecl` or derives from it. -/
def walkUp (Context : ASTContext) (D : Decl) : List Emit :=
  ⟨"VisitDecl", D, (VisitDecl Context D).1⟩ ::
    (if D.getKind.isCXXRecordClass then
      [⟨"VisitCXXRecordDecl", D, D.getQualifiedNameAsString ++ "\n"⟩] else [])

mutual
/-- Every declaration of the tree: the node first, then the subtrees of its
children in order, then the subtrees of its instantiations. -/
def nodes : Decl → List Decl
  | .mk kind range location isImplicit name qualifiedName type children instantiations =>
    .mk kind range location isImplicit name qualifiedName type children instantiations ::
      (nodesOfAll children ++ nodesOfAll instantiations)
/-- The declarations of a list of trees, in order. -/
def nodesOfAll : List Decl → List Decl
  | [] => []
  | D :: rest => nodes D ++ nodesOfAll rest
end

mutual
/-- Every declaration of the tree, in the order of `nodes`, each with the mark
that tells whether it is hidden: whether it is implicit or a template
instantiation, or lies below a declaration that is (`hidden` says so of the
place the tree hangs at). -/
def marked (hidden : Bool) : Decl → List (Decl × Bool)
  | .mk kind range location isImplicit name qualifiedName type children instantiations =>
    (.mk kind range location isImplicit name qualifiedName type children instantiations,
        hidden || isImplicit) ::
      (markedOfAll (hidden || isImplicit) children ++ markedOfAll true instantiations)
/-- The same for a list of trees, in order. -/
def markedOfAll (hidden : Bool) : List Decl → List (Decl × Bool)
  | [] => []
  | D :: rest => marked hidden D ++ markedOfAll hidden rest
end

mutual
/-- The declarations of the tree that have no implicit declaration among
themselves and their ancestors up to the given node, in pre-order: the node
first and then the subtrees of its children in order. -/
def visited : Decl → List Decl
  | .mk kind range location isImplicit name qualifiedName type children instantiations =>
    if isImplicit then []
    else .mk kind range location isImplicit name qualifiedName type children instantiations ::
      visitedOfAll children
/-- The same for a list of trees, in order. -/
def visitedOfAll : List Decl → List Decl
  | [] => []
  | D :: rest => visited D ++ visitedOfAll rest
end

/-- The node reached from `D` by following the child numbers of `path`, when
neither `D` nor a node on the way, the reached one included, is implicit. -/
def visitedAt (D : Decl) : List Nat → Option Decl
  | [] => if D.isImplicit then none else some D
  | i :: path =>
    if D.isImplicit then none
    else
      match D.children.get? i with
      | none => none
      | some Child => visitedAt Child path

/-- The visitor class with `VisitDecl` as its only method. -/
def onlyVisitDecl (Context : ASTContext) : Visitor where
  methods := fun m => if m = "VisitDecl" then some (VisitDecl Context) else none
  shouldVisitTemplateInstantiations := false
  shouldVisitImplicitCode := false
  shouldTraversePostOrder := false

/-- The visitor class as written but for `VisitCXXFunctionDecl`. -/
def withoutVisitCXXFunctionDecl (Context : ASTContext) : Visitor where
  methods := fun m =>
    if m = "VisitDecl" then some (VisitDecl Context)
    else if m = "VisitCXXRecordDecl" then some (VisitCXXRecordDecl Context)
    else none
  shouldVisitTemplateInstantiations := false
  shouldVisitImplicitCode := false
  shouldTraversePostOrder := false

/-- The number a text of decimal digits stands for, read from the left on
top of `acc`. -/
def decimalValue (acc : Nat) : List Char → Nat
  | [] => acc
  | c :: cs => decimalValue (acc * 10 + (c.toNat - 48)) cs

/-! ## The methods of the visitor -/

theorem VisitDecl_snd (C : ASTContext) (D : Decl) : (VisitDecl C D).2 = true := by
  unfold VisitDecl
  simp only []
  split <;> rfl

theorem VisitDecl_outside (C : ASTContext) (D : Decl) (h : beginsInMainFile C D = false) :
    (VisitDecl C D).1 = "" := by
  unfold beginsInMainFile at h
  simp [VisitDecl, h]

theorem String.ne_empty_of_append_newline (s : String) : s ++ "\n" ≠ "" := by
  intro h
  have h1 := congrArg String.length h
  rw [String.length_append] at h1
  have h2 : "\n".length = 1 := by decide
  have h3 : "".length = 0 := by decide
  omega

theorem VisitDecl_inside_ne (C : ASTContext) (D : Decl) (h : beginsInMainFile C D = true) :
    (VisitDecl C D).1 ≠ "" := by
  unfold beginsInMainFile at h
  simp only [VisitDecl, h, if_true]
  exact String.ne_empty_of_append_newline _

theorem VisitCXXRecordDecl_eq (C : ASTContext) (D : Decl) :
    VisitCXXRecordDecl C D = (D.getQualifiedNameAsString ++ "\n", true) := by
  simp [VisitCXXRecordDecl]

theorem VisitDecl_ne_empty_iff (C : ASTContext) (D : Decl) :
    (VisitDecl C D).1 ≠ "" ↔ beginsInMainFile C D = true := by
  constructor
  · intro h
    by_contra hc
    have hc2 : beginsInMainFile C D = false := by simpa using hc
    exact h (VisitDecl_outside C D hc2)
  · exact VisitDecl_inside_ne C D

theorem VisitDecl_line_shape (C : ASTContext) (D : Decl)
    (h : C.getSourceManager.isInMainFile D.getSourceRange.getBegin = true) :
    ∃ fields : String, (VisitDecl C D).1 =
      D.getDeclKindName ++ "Decl " ++ "<"
        ++ C.getSourceManager.getFilename D.getSourceRange.getBegin ++ ", "
        ++ toString (C.getSourceManager.getFileOffset D.getSourceRange.getBegin) ++ ", "
        ++ toString (C.getSourceManager.getFileOffset D.getSourceRange.getEnd) ++ "> "
        ++ fields ++ "\n" := by
  by_cases hf : D.getKind = Kind.Function
  · refine ⟨D.getNameAsString ++ " " ++ "'" ++ D.getTypeAsString ++ "' ", ?_⟩
    simp [VisitDecl, h, hf, String.append_assoc]
  · by_cases hp : D.getKind = Kind.ParmVar
    · refine ⟨D.getNameAsString ++ " " ++ "'" ++ D.getTypeAsString ++ "' ", ?_⟩
      simp [VisitDecl, h, hp, String.append_assoc]
    · refine ⟨"", ?_⟩
      simp [VisitDecl, h, hf, hp, String.append_assoc]

/-- C1: for every node `D`, `VisitDecl` returns `true`; it writes a kind line
(a non-empty text that starts with the kind name, `Decl ` and the span, and
ends with a newline) when the begin location of `D` is in the main file, and
writes nothing at all when it is not, so that it writes something if and only
if the begin location is in the main file. -/
theorem VisitDecl_reports_iff_in_main_file (Context : ASTContext) (D : Decl) :
    (VisitDecl Context D).2 = true ∧
    ((VisitDecl Context D).1 ≠ "" ↔
      Context.getSourceManager.isInMainFile D.getSourceRange.getBegin = true) ∧
    (Context.getSourceManager.isInMainFile D.getSourceRange.getBegin = false →
      (VisitDecl Context D).1 = "") ∧
    (Context.getSourceManager.isInMainFile D.getSourceRange.getBegin = true →
      ∃ fields : String, (VisitDecl Context D).1 =
        D.getDeclKindName ++ "Decl " ++ "<"
          ++ Context.getSourceManager.getFilename D.getSourceRange.getBegin ++ ", "
          ++ toString (Context.getSourceManager.getFileOffset D.getSourceRange.getBegin) ++ ", "
          ++ toString (Context.getSourceManager.getFileOffset D.getSourceRange.getEnd) ++ "> "
          ++ fields ++ "\n") :=
  ⟨VisitDecl_snd Context D, VisitDecl_ne_empty_iff Context D, VisitDecl_outside Context D,
    VisitDecl_line_shape Context D⟩

/-- Witness of C1 on the `add` example: `VisitDecl` writes the line of `add`,
which is in the main file, and nothing for the translation unit, which is
not; it returns `true` both times. -/
theorem VisitDecl_reports_iff_in_main_file_add :
    VisitDecl addContext addFunction =
      ("FunctionDecl <input.cc, 0, 38> add 'int (int, int)' \n", true) ∧
    VisitDecl addContext addContext.getTranslationUnitDecl = ("", true) ∧
    (VisitDecl addContext addFunction).2 = true :=
  ⟨by decide, by decide, (VisitDecl_reports_iff_in_main_file addContext addFunction).1⟩

/-- C2: for a node of kind Function or ParmVar whose begin location is in the
main file, the text `VisitDecl` writes is exactly the kind name, `Decl `, the
span `<file, begin, end> `, the name (empty or not), a blank, the type string
between single quotes, a blank and a newline. -/
theorem VisitDecl_function_or_parameter (Context : ASTContext) (D : Decl)
    (hkind : D.getKind = Kind.Function ∨ D.getKind = Kind.ParmVar)
    (hmain : Context.getSourceManager.isInMainFile D.getSourceRange.getBegin = true) :
    VisitDecl Context D =
      (D.getDeclKindName ++ "Decl " ++ "<"
        ++ Context.getSourceManager.getFilename D.getSourceRange.getBegin ++ ", "
        ++ toString (Context.getSourceManager.getFileOffset D.getSourceRange.getBegin) ++ ", "
        ++ toString (Context.getSourceManager.getFileOffset D.getSourceRange.getEnd) ++ "> "
        ++ D.getNameAsString ++ " " ++ "'" ++ D.getTypeAsString ++ "' " ++ "\n", true) := by
  rcases hkind with hf | hp
  · simp [VisitDecl, hmain, hf, String.append_assoc]
  · simp [VisitDecl, hmain, hp, String.append_assoc]

/-- C3: for a node whose begin location is in the main file and whose kind
tag is neither Function nor ParmVar, the text `VisitDecl` writes is exactly
the kind name, `Decl `, the span `<file, begin, end> ` and a newline: neither
the name nor the type string of the node is written. -/
theorem VisitDecl_other_kind (Context : ASTContext) (D : Decl)
    (hf : D.getKind ≠ Kind.Function) (hp : D.getKind ≠ Kind.ParmVar)
    (hmain : Context.getSourceManager.isInMainFile D.getSourceRange.getBegin = true) :
    VisitDecl Context D =
      (D.getDeclKindName ++ "Decl " ++ "<"
        ++ Context.getSourceManager.getFilename D.getSourceRange.getBegin ++ ", "
        ++ toString (Context.getSourceManager.getFileOffset D.getSourceRange.getBegin) ++ ", "
        ++ toString (Context.getSourceManager.getFileOffset D.getSourceRange.getEnd) ++ "> "
        ++ "\n", true) := by
  simp [VisitDecl, hmain, hf, hp, String.append_assoc]

/-! ## The traversal -/

theorem WalkUpFrom_eq (C : ASTContext) (D : Decl) (k : Kind) :
    WalkUpFrom (FindNamedClassVisitor C) D k.classChain =
      (⟨"VisitDecl", D, (VisitDecl C D).1⟩ ::
        (if k.isCXXRecordClass then
          [⟨"VisitCXXRecordDecl", D, D.getQualifiedNameAsString ++ "\n"⟩] else []), true) := by
  cases k <;>
    simp [Kind.classChain, Kind.bases, Kind.getDeclKindName, Kind.isCXXRecordClass, WalkUpFrom,
      FindNamedClassVisitor, VisitDecl_snd, VisitCXXRecordDecl_eq]

theorem WalkUpFrom_without (C : ASTContext) (D : Decl) (k : Kind) :
    WalkUpFrom (withoutVisitCXXFunctionDecl C) D k.classChain =
      WalkUpFrom (FindNamedClassVisitor C) D k.classChain := by
  cases k <;>
    simp [Kind.classChain, Kind.bases, Kind.getDeclKindName, WalkUpFrom,
      FindNamedClassVisitor, withoutVisitCXXFunctionDecl]

theorem WalkUpFrom_only (C : ASTContext) (D : Decl) (k : Kind) :
    WalkUpFrom (onlyVisitDecl C) D k.classChain =
      ([⟨"VisitDecl", D, (VisitDecl C D).1⟩], true) := by
  cases k <;>
    simp [Kind.classChain, Kind.bases, Kind.getDeclKindName, WalkUpFrom,
      onlyVisitDecl, VisitDecl_snd]

theorem TraverseDecl_unfold (V : Visitor) (D : Decl)
    (h1 : V.shouldVisitImplicitCode = false) (h2 : V.shouldTraversePostOrder = false)
    (h3 : V.shouldVisitTemplateInstantiations = false) :
    TraverseDecl V D =
      if D.isImplicit then ([], true)
      else if (WalkUpFrom V D D.getKind.classChain).2 then
        ((WalkUpFrom V D D.getKind.classChain).1 ++ (TraverseDeclContextHelper V D.children).1,
          (TraverseDeclContextHelper V D.children).2)
      else ((WalkUpFrom V D D.getKind.classChain).1, false) := by
  cases D with
  | mk k r l i n q t cs is =>
    simp only [TraverseDecl, Decl.isImplicit, Decl.getKind, Decl.children, h1, h2, h3]
    cases i
    · cases hw : (WalkUpFrom V (.mk k r l false n q t cs is) k.classChain).2
      · simp [hw]
      · cases hc : (TraverseDeclContextHelper V cs).2 <;> simp [hw, hc]
    · simp

theorem visited_unfold (D : Decl) :
    visited D = if D.isImplicit then [] else D :: visitedOfAll D.children := by
  cases D with
  | mk k r l i n q t cs is => simp only [visited, Decl.isImplicit, Decl.children]

mutual
theorem TraverseDecl_eq (C : ASTContext) :
    ∀ D : Decl, TraverseDecl (FindNamedClassVisitor C) D = ((visited D).flatMap (walkUp C), true)
  | .mk k r l i n q t cs is => by
    have ih := TraverseDeclContextHelper_eq C cs
    rw [TraverseDecl_unfold _ _ rfl rfl rfl, visited_unfold]
    simp only [Decl.isImplicit, Decl.getKind, Decl.children, WalkUpFrom_eq, ih]
    cases i <;> simp [walkUp, Decl.getKind, List.flatMap_cons]
theorem TraverseDeclContextHelper_eq (C : ASTContext) :
    ∀ cs : List Decl, TraverseDeclContextHelper (FindNamedClassVisitor C) cs =
      ((visitedOfAll cs).flatMap (walkUp C), true)
  | [] => by simp [TraverseDeclContextHelper, visitedOfAll]
  | c :: cs => by
    have ih1 := TraverseDecl_eq C c
    have ih2 := TraverseDeclContextHelper_eq C cs
    simp [TraverseDeclContextHelper, visitedOfAll, ih1, ih2, List.flatMap_append]
end

mutual
theorem TraverseDecl_without (C : ASTContext) :
    ∀ D : Decl, TraverseDecl (withoutVisitCXXFunctionDecl C) D =
      TraverseDecl (FindNamedClassVisitor C) D
  | .mk k r l i n q t cs is => by
    have ih := TraverseDeclContextHelper_without C cs
    rw [TraverseDecl_unfold _ _ rfl rfl rfl, TraverseDecl_unfold _ _ rfl rfl rfl]
    simp only [Decl.children, WalkUpFrom_without, ih]
theorem TraverseDeclContextHelper_without (C : ASTContext) :
    ∀ cs : List Decl, TraverseDeclContextHelper (withoutVisitCXXFunctionDecl C) cs =
      TraverseDeclContextHelper (FindNamedClassVisitor C) cs
  | [] => by simp [TraverseDeclContextHelper]
  | c :: cs => by
    have ih1 := TraverseDecl_without C c
    have ih2 := TraverseDeclContextHelper_without C cs
    simp [TraverseDeclContextHelper, ih1, ih2]
end

mutual
theorem TraverseDecl_only (C : ASTContext) :
    ∀ D : Decl, TraverseDecl (onlyVisitDecl C) D =
      ((visited D).map (fun N => (⟨"VisitDecl", N, (VisitDecl C N).1⟩ : Emit)), true)
  | .mk k r l i n q t cs is => by
    have ih := TraverseDeclContextHelper_only C cs
    rw [TraverseDecl_unfold _ _ rfl rfl rfl, visited_unfold]
    simp only [Decl.isImplicit, Decl.getKind, Decl.children, WalkUpFrom_only, ih]
    cases i <;> simp
theorem TraverseDeclContextHelper_only (C : ASTContext) :
    ∀ cs : List Decl, TraverseDeclContextHelper (onlyVisitDecl C) cs =
      ((visitedOfAll cs).map (fun N => (⟨"VisitDecl", N, (VisitDecl C N).1⟩ : Emit)), true)
  | [] => by simp [TraverseDeclContextHelper, visitedOfAll]
  | c :: cs => by
    have ih1 := TraverseDecl_only C c
    have ih2 := TraverseDeclContextHelper_only C cs
    simp [TraverseDeclContextHelper, visitedOfAll, ih1, ih2]
end

theorem stdoutOf_append (xs ys : List Emit) :
    stdoutOf (xs ++ ys) = stdoutOf xs ++ stdoutOf ys := by
  apply String.ext
  simp [stdoutOf, String.join_eq, String.data_append]

theorem stdoutOf_cons (x : Emit) (xs : List Emit) :
    stdoutOf (x :: xs) = x.text ++ stdoutOf xs := by
  apply String.ext
  simp [stdoutOf, String.join_eq, String.data_append]

theorem HandleTranslationUnit_eq (C : ASTContext) :
    HandleTranslationUnit C = ((visited C.getTranslationUnitDecl).flatMap (walkUp C), true) := by
  simp [HandleTranslationUnit, FindNamedClassAction.CreateASTConsumer, FindNamedClassConsumer.new,
    FindNamedClassConsumer.HandleTranslationUnit, TraverseDecl_eq]

theorem visitedOfAll_append (xs ys : List Decl) :
    visitedOfAll (xs ++ ys) = visitedOfAll xs ++ visitedOfAll ys := by
  induction xs with
  | nil => simp [visitedOfAll]
  | cons x xs ih => simp [visitedOfAll, ih]

theorem mem_walkUp (C : ASTContext) (D : Decl) (e : Emit) (h : e ∈ walkUp C D) :
    e.node = D ∧
    ((e.method = "VisitDecl" ∧ e.text = (VisitDecl C D).1) ∨
      (e.method = "VisitCXXRecordDecl" ∧ D.getKind.isCXXRecordClass = true ∧
        e.text = D.getQualifiedNameAsString ++ "\n")) := by
  unfold walkUp at h
  rcases List.mem_cons.1 h with h | h
  · subst h
    simp
  · cases hk : D.getKind.isCXXRecordClass
    · simp [hk] at h
    · simp [hk] at h
      subst h
      simp

theorem visitedAt_not_implicit :
    ∀ (path : List Nat) (A B : Decl), visitedAt A path = some B → B.isImplicit = false := by
  intro path
  induction path with
  | nil =>
    intro A B h
    unfold visitedAt at h
    split at h
    · simp at h
    · simp at h
      subst h
      simpa using ‹¬ A.isImplicit = true›
  | cons i path ih =>
    intro A B h
    unfold visitedAt at h
    split at h
    · simp at h
    · split at h
      · simp at h
      · exact ih _ _ h

theorem children_split (cs : List Decl) :
    ∀ (i : Nat) (c : Decl), cs.get? i = some c → ∃ l1 l2, cs = l1 ++ c :: l2 := by
  induction cs with
  | nil => intro i c h; simp at h
  | cons x xs ih =>
    intro i c h
    cases i with
    | zero =>
      simp at h
      exact ⟨[], xs, by simp [h]⟩
    | succ j =>
      simp at h
      obtain ⟨l1, l2, hl⟩ := ih j c (by simpa using h)
      exact ⟨x :: l1, l2, by simp [hl]⟩

theorem visited_subtree :
    ∀ (path : List Nat) (R N : Decl), visitedAt R path = some N →
      ∃ pre post, visited R = pre ++ (visited N ++ post) := by
  intro path
  induction path with
  | nil =>
    intro R N h
    unfold visitedAt at h
    split at h
    · simp at h
    · simp at h
      subst h
      exact ⟨[], [], by simp⟩
  | cons i path ih =>
    intro R N h
    unfold visitedAt at h
    split at h
    · simp at h
    · rename_i hR
      split at h
      · simp at h
      · rename_i Child hc
        obtain ⟨l1, l2, hl⟩ := children_split _ _ _ hc
        obtain ⟨pre, post, hpp⟩ := ih Child N h
        refine ⟨R :: (visitedOfAll l1 ++ pre), post ++ visitedOfAll l2, ?_⟩
        rw [visited_unfold, if_neg hR, hl, visitedOfAll_append]
        simp [visitedOfAll, hpp]

theorem visited_split :
    ∀ (path : List Nat) (A B : Decl), path ≠ [] → visitedAt A path = some B →
      ∃ mid post, visited A = A :: (mid ++ (B :: post)) := by
  intro path A B hp h
  cases path with
  | nil => exact absurd rfl hp
  | cons i path =>
    have hB := visitedAt_not_implicit _ _ _ h
    unfold visitedAt at h
    split at h
    · simp at h
    · rename_i hA
      split at h
      · simp at h
      · rename_i Child hc
        obtain ⟨l1, l2, hl⟩ := children_split _ _ _ hc
        obtain ⟨pre, post, hpp⟩ := visited_subtree path Child B h
        refine ⟨visitedOfAll l1 ++ pre, visitedOfAll B.children ++ (post ++ visitedOfAll l2), ?_⟩
        rw [visited_unfold, if_neg hA, hl, visitedOfAll_append]
        simp only [visitedOfAll, hpp]
        rw [visited_unfold B]
        simp [hB]

/-! ## The declarations the traversal reaches -/

mutual
theorem marked_hidden :
    ∀ D : Decl, (marked true D).filter (fun p => !p.2) = []
  | .mk k r l i n q t cs is => by
    have ih1 := markedOfAll_hidden cs
    have ih2 := markedOfAll_hidden is
    simp [marked, List.filter_append, ih1, ih2]
theorem markedOfAll_hidden :
    ∀ L : List Decl, (markedOfAll true L).filter (fun p => !p.2) = []
  | [] => by simp [markedOfAll]
  | D :: L => by
    have ih1 := marked_hidden D
    have ih2 := markedOfAll_hidden L
    simp [markedOfAll, List.filter_append, ih1, ih2]
end

mutual
theorem reached_eq_visited :
    ∀ D : Decl, ((marked false D).filter (fun p => !p.2)).map Prod.fst = visited D
  | .mk k r l i n q t cs is => by
    have ih1 := reachedOfAll_eq_visitedOfAll cs
    have ih2 := markedOfAll_hidden is
    have ih3 := markedOfAll_hidden cs
    cases i
    · simp [marked, visited, List.filter_append, ih1, ih2]
    · simp [marked, visited, List.filter_append, ih2, ih3]
theorem reachedOfAll_eq_visitedOfAll :
    ∀ L : List Decl,
      ((markedOfAll false L).filter (fun p => !p.2)).map Prod.fst = visitedOfAll L
  | [] => by simp [markedOfAll, visitedOfAll]
  | D :: L => by
    have ih1 := reached_eq_visited D
    have ih2 := reachedOfAll_eq_visitedOfAll L
    simp [markedOfAll, visitedOfAll, List.filter_append, ih1, ih2]
end

mutual
theorem marked_fst :
    ∀ (D : Decl) (h : Bool), (marked h D).map Prod.fst = nodes D
  | .mk k r l i n q t cs is, h => by
    have ih1 := markedOfAll_fst cs (h || i)
    have ih2 := markedOfAll_fst is true
    simp [marked, nodes, ih1, ih2]
theorem markedOfAll_fst :
    ∀ (L : List Decl) (h : Bool), (markedOfAll h L).map Prod.fst = nodesOfAll L
  | [], h => by simp [markedOfAll, nodesOfAll]
  | D :: L, h => by
    have ih1 := marked_fst D h
    have ih2 := markedOfAll_fst L h
    simp [markedOfAll, nodesOfAll, ih1, ih2]
end

theorem ordered_split (f : Decl → Nat) :
    ∀ (L : List Decl), L.Pairwise (fun x y => f x ≤ f y) →
      ∀ a b : Decl, a ∈ L → b ∈ L → f a < f b →
        ∃ l1 l2 l3 : List Decl, L = l1 ++ a :: (l2 ++ b :: l3) := by
  intro L
  induction L with
  | nil => intro _ a b ha; simp at ha
  | cons x xs ih =>
    intro hp a b ha hb hab
    rw [List.pairwise_cons] at hp
    rcases List.mem_cons.1 ha with hax | hax
    · rcases List.mem_cons.1 hb with hbx | hbx
      · subst hax
        subst hbx
        exact absurd hab (lt_irrefl _)
      · obtain ⟨l2, l3, hl⟩ := List.append_of_mem hbx
        exact ⟨[], l2, l3, by simp [hax, hl]⟩
    · rcases List.mem_cons.1 hb with hbx | hbx
      · have := hp.1 a hax
        subst hbx
        omega
      · obtain ⟨l1, l2, l3, hl⟩ := ih hp.2 a b hax hbx hab
        exact ⟨x :: l1, l2, l3, by simp [hl]⟩

/-! ## Decimal numbers in a line -/

theorem decimalValue_nil (acc : Nat) : decimalValue acc [] = acc := rfl
theorem decimalValue_cons (acc : Nat) (c : Char) (cs : List Char) :
    decimalValue acc (c :: cs) = decimalValue (acc * 10 + (c.toNat - 48)) cs := rfl

theorem decimalValue_append (L M : List Char) :
    ∀ acc : Nat, decimalValue acc (L ++ M) = decimalValue (decimalValue acc L) M := by
  induction L with
  | nil => intro acc; rfl
  | cons c L ih => intro acc; exact ih _

theorem digitChar_value (m : Nat) (h : m < 10) : (Nat.digitChar m).toNat - 48 = m := by
  interval_cases m <;> rfl

theorem digitChar_ne (m : Nat) (h : m < 10) :
    Nat.digitChar m ≠ ',' ∧ Nat.digitChar m ≠ '>' := by
  interval_cases m <;>
    exact ⟨fun h => absurd (congrArg Char.toNat h) (by decide),
      fun h => absurd (congrArg Char.toNat h) (by decide)⟩

theorem toDigitsCore_succ (fuel n : Nat) (ds : List Char) :
    Nat.toDigitsCore 10 (fuel + 1) n ds =
      if n / 10 = 0 then Nat.digitChar (n % 10) :: ds
      else Nat.toDigitsCore 10 fuel (n / 10) (Nat.digitChar (n % 10) :: ds) := rfl

theorem toDigitsCore_spec :
    ∀ (fuel n : Nat) (ds : List Char), n < fuel →
      ∃ L : List Char, Nat.toDigitsCore 10 fuel n ds = L ++ ds ∧
        (∀ acc : Nat, decimalValue acc L = acc * 10 ^ L.length + n) ∧
        (∀ c ∈ L, c ≠ ',' ∧ c ≠ '>') := by
  intro fuel
  induction fuel with
  | zero => intro n ds h; omega
  | succ fuel ih =>
    intro n ds h
    have hmod : n % 10 < 10 := Nat.mod_lt _ (by decide)
    have hv := digitChar_value _ hmod
    have hne := digitChar_ne _ hmod
    rw [toDigitsCore_succ]
    generalize Nat.digitChar (n % 10) = d at hv hne ⊢
    by_cases h0 : n / 10 = 0
    · refine ⟨[d], ?_, ?_, ?_⟩
      · rw [if_pos h0]; rfl
      · intro acc
        have hn : n % 10 = n := by omega
        rw [decimalValue_cons, decimalValue_nil, hv, hn]
        simp
      · intro c hc
        rw [List.mem_singleton] at hc
        rw [hc]
        exact hne
    · have hlt : n / 10 < fuel := by omega
      obtain ⟨L, hL, hval, hch⟩ := ih (n / 10) (d :: ds) hlt
      refine ⟨L ++ [d], ?_, ?_, ?_⟩
      · rw [if_neg h0, hL]; simp
      · intro acc
        rw [decimalValue_append, hval, decimalValue_cons, decimalValue_nil, hv,
          List.length_append, List.length_singleton, pow_succ]
        have := Nat.div_add_mod n 10
        nlinarith [this]
      · intro c hc
        rcases List.mem_append.1 hc with hc | hc
        · exact hch c hc
        · rw [List.mem_singleton] at hc
          rw [hc]
          exact hne

theorem toString_data (n : Nat) : (toString n).data = Nat.toDigits 10 n := rfl

theorem toString_spec (n : Nat) :
    decimalValue 0 (toString n).data = n ∧ ∀ c ∈ (toString n).data, c ≠ ',' ∧ c ≠ '>' := by
  obtain ⟨L, hL, hval, hch⟩ := toDigitsCore_spec (n + 1) n [] (by omega)
  rw [toString_data, Nat.toDigits, hL]
  simp only [List.append_nil]
  exact ⟨by simpa using hval 0, hch⟩

theorem split_at_mark (c : Char) :
    ∀ (L1 L2 R1 R2 : List Char), c ∉ L1 → c ∉ L2 → L1 ++ c :: R1 = L2 ++ c :: R2 →
      L1 = L2 ∧ R1 = R2 := by
  intro L1
  induction L1 with
  | nil =>
    intro L2 R1 R2 _ h2 h
    cases L2 with
    | nil => simpa using h
    | cons y ys =>
      simp at h
      exact absurd (by simp [h.1]) h2
  | cons x xs ih =>
    intro L2 R1 R2 h1 h2 h
    cases L2 with
    | nil =>
      simp at h
      exact absurd (by simp [h.1]) h1
    | cons y ys =>
      simp at h
      obtain ⟨h3, h4⟩ := ih ys R1 R2 (fun hm => h1 (List.mem_cons_of_mem _ hm))
        (fun hm => h2 (List.mem_cons_of_mem _ hm)) h.2
      exact ⟨by simp [h.1, h3], h4⟩

theorem offsets_read_back (P : String) (x y b e : Nat) (r1 r2 : String)
    (h : P ++ toString x ++ ", " ++ toString y ++ "> " ++ r1 =
      P ++ toString b ++ ", " ++ toString e ++ "> " ++ r2) :
    x = b ∧ y = e := by
  have hd := congrArg String.data h
  simp only [String.data_append, List.append_assoc] at hd
  have hd := List.append_cancel_left hd
  simp only [List.cons_append, List.nil_append] at hd
  obtain ⟨hx, hrest⟩ := split_at_mark ',' _ _ _ _
    (fun hm => ((toString_spec x).2 _ hm).1 rfl) (fun hm => ((toString_spec b).2 _ hm).1 rfl) hd
  have hrest := List.tail_eq_of_cons_eq hrest
  obtain ⟨hy, _⟩ := split_at_mark '>' _ _ _ _
    (fun hm => ((toString_spec y).2 _ hm).2 rfl) (fun hm => ((toString_spec e).2 _ hm).2 rfl)
    hrest
  constructor
  · rw [← (toString_spec x).1, ← (toString_spec b).1, hx]
  · rw [← (toString_spec y).1, ← (toString_spec e).1, hy]

/-! ## The claims -/

/-- Witness of C2 on the `add` example: `add` is of kind Function and in the
main file, `VisitDecl` writes the Function line of `add` with the type
`int (int, int)`, and the whole run writes that line and the two ParmVar lines
of `a` and `b`, typed `int`; the unnamed parameter of `void f(int);` gets a
line with an empty name field. -/
theorem VisitDecl_function_or_parameter_add :
    (addFunction.getKind = Kind.Function ∨ addFunction.getKind = Kind.ParmVar) ∧
    addContext.getSourceManager.isInMainFile addFunction.getSourceRange.getBegin = true ∧
    VisitDecl addContext addFunction =
      ("FunctionDecl <input.cc, 0, 38> add 'int (int, int)' \n", true) ∧
    stdoutOf (HandleTranslationUnit addContext).1 =
      "FunctionDecl <input.cc, 0, 38> add 'int (int, int)' \nParmVarDecl <input.cc, 8, 12> a 'int' \nParmVarDecl <input.cc, 15, 19> b 'int' \n" ∧
    VisitDecl unnamedContext unnamedParm = ("ParmVarDecl <input.cc, 7, 7>  'int' \n", true) :=
  ⟨Or.inl rfl, by decide,
    (VisitDecl_function_or_parameter addContext addFunction (Or.inl rfl) (by decide)).trans
      (by decide),
    by decide,
    (VisitDecl_function_or_parameter unnamedContext unnamedParm (Or.inr rfl) (by decide)).trans
      (by decide)⟩

/-- Witness of C3 on `struct S \x7b void f(); \x7d;`: the member function `f`
is of kind CXXMethod, not Function, and its line holds neither its name nor
its type. -/
theorem VisitDecl_other_kind_method :
    methodDecl.getKind ≠ Kind.Function ∧ methodDecl.getKind ≠ Kind.ParmVar ∧
    methodContext.getSourceManager.isInMainFile methodDecl.getSourceRange.getBegin = true ∧
    VisitDecl methodContext methodDecl = ("CXXMethodDecl <input.cc, 11, 18> \n", true) :=
  ⟨by decide, by decide, by decide,
    (VisitDecl_other_kind methodContext methodDecl (by decide) (by decide) (by decide)).trans
      (by decide)⟩

/-- Counterexample to C4: in the run on `#include "s.h"`, where the header
declares `struct S`, the record lies outside the main file and still
`VisitCXXRecordDecl` writes the line `S` for it, which is no kind line; the
run on `struct S \x7b\x7d;` writes the same line after the kind line. -/
theorem record_name_line_in_output :
    beginsInMainFile headerContext headerRecord = false ∧
    stdoutOf (HandleTranslationUnit headerContext).1 = "S\n" ∧
    stdoutOf (HandleTranslationUnit structContext).1 = "CXXRecordDecl <input.cc, 0, 10> \nS\n" ∧
    ¬ (∀ e ∈ (HandleTranslationUnit headerContext).1, e.text ≠ "" →
        e.isKindLine = true ∧ beginsInMainFile headerContext e.node = true) := by
  refine ⟨by decide, by decide, by decide, ?_⟩
  intro h
  have h1 := h ⟨"VisitCXXRecordDecl", headerRecord, "S\n"⟩
    (List.Mem.tail _ (List.Mem.tail _ (List.Mem.head _))) (by decide)
  exact absurd h1.1 (by decide)

/-- C4, amended: every invocation in the run is made on a visited node and is
either `VisitDecl`, whose text is non-empty (the kind line) exactly when the
begin location of the node is in the main file, or `VisitCXXRecordDecl` on a
node of a record class, whose text is the qualified name and a newline
wherever the node lies; a node outside the main file that is of no record
class contributes no text. -/
theorem output_lines_classified (Context : ASTContext) (e : Emit)
    (he : e ∈ (HandleTranslationUnit Context).1) :
    e.node ∈ visited Context.getTranslationUnitDecl ∧
    ((e.method = "VisitDecl" ∧ e.text = (VisitDecl Context e.node).1 ∧
        (e.text ≠ "" ↔ beginsInMainFile Context e.node = true)) ∨
      (e.method = "VisitCXXRecordDecl" ∧ e.node.getKind.isCXXRecordClass = true ∧
        e.text = e.node.getQualifiedNameAsString ++ "\n")) ∧
    (beginsInMainFile Context e.node = false → e.node.getKind.isCXXRecordClass = false →
      e.text = "") := by
  rw [HandleTranslationUnit_eq] at he
  obtain ⟨D, hD, hmem⟩ := List.mem_flatMap.1 he
  obtain ⟨hnode, hcase⟩ := mem_walkUp Context D e hmem
  subst hnode
  refine ⟨hD, ?_, ?_⟩
  · rcases hcase with ⟨hm, ht⟩ | ⟨hm, hk, ht⟩
    · refine Or.inl ⟨hm, ht, ?_⟩
      rw [ht]
      exact VisitDecl_ne_empty_iff Context e.node
    · exact Or.inr ⟨hm, hk, ht⟩
  · intro hout hk
    rcases hcase with ⟨_, ht⟩ | ⟨_, hk2, _⟩
    · rw [ht]
      exact VisitDecl_outside Context e.node hout
    · rw [hk] at hk2
      exact absurd hk2 (by decide)

/-- Witness of C4, amended, on `struct S \x7b\x7d;`: the invocation of
`VisitCXXRecordDecl` on `S` is part of the run and writes `S` and a newline. -/
theorem output_lines_classified_struct :
    (⟨"VisitCXXRecordDecl", structRecord, "S\n"⟩ : Emit) ∈
      (HandleTranslationUnit structContext).1 ∧
    structRecord ∈ visited structContext.getTranslationUnitDecl :=
  ⟨List.Mem.tail _ (List.Mem.tail _ (List.Mem.head _)),
    (output_lines_classified structContext ⟨"VisitCXXRecordDecl", structRecord, "S\n"⟩
      (List.Mem.tail _ (List.Mem.tail _ (List.Mem.head _)))).1⟩
theorem TraverseDeclContextHelper_append (C : ASTContext) (xs ys : List Decl) :
    (TraverseDeclContextHelper (FindNamedClassVisitor C) (xs ++ ys)).1 =
      (TraverseDeclContextHelper (FindNamedClassVisitor C) xs).1 ++
        (TraverseDeclContextHelper (FindNamedClassVisitor C) ys).1 := by
  simp [TraverseDeclContextHelper_eq, visitedOfAll_append, List.flatMap_append]

theorem TraverseDeclContextHelper_cons (C : ASTContext) (x : Decl) (xs : List Decl) :
    (TraverseDeclContextHelper (FindNamedClassVisitor C) (x :: xs)).1 =
      (TraverseDecl (FindNamedClassVisitor C) x).1 ++
        (TraverseDeclContextHelper (FindNamedClassVisitor C) xs).1 := by
  simp [TraverseDeclContextHelper_eq, TraverseDecl_eq, visitedOfAll, List.flatMap_append]

theorem TraverseDecl_visited (C : ASTContext) (D : Decl) (h : D.isImplicit = false) :
    (TraverseDecl (FindNamedClassVisitor C) D).1 =
      walkUp C D ++ (TraverseDeclContextHelper (FindNamedClassVisitor C) D.children).1 := by
  rw [TraverseDecl_eq, TraverseDeclContextHelper_eq, visited_unfold]
  simp [h, List.flatMap_cons]

/-- Counterexample to C5: in the run on `typedef struct S \x7b\x7d T;` the
typedef `T` and the record `S` are both declarations of the translation
unit, `T` begins at offset 0 and `S` at offset 8, both have a kind line, and
the line of `S` is written first: the front end lists the record before the
typedef whose specifiers declare it, and the traversal follows that list. -/
theorem typedef_reported_after_its_record :
    typedefContext.getTranslationUnitDecl.children =
      [implicitTypedefDecl "__int128_t" "__int128",
        implicitTypedefDecl "__builtin_va_list" "__va_list_tag[1]", typedefRecord, typedefDecl] ∧
    beginOffset typedefContext typedefDecl < beginOffset typedefContext typedefRecord ∧
    beginsInMainFile typedefContext typedefDecl = true ∧
    beginsInMainFile typedefContext typedefRecord = true ∧
    ((HandleTranslationUnit typedefContext).1.filter Emit.isKindLine).map Emit.text =
      ["CXXRecordDecl <input.cc, 8, 18> \n", "TypedefDecl <input.cc, 0, 20> \n"] ∧
    stdoutOf (HandleTranslationUnit typedefContext).1 =
      "CXXRecordDecl <input.cc, 8, 18> \nS\nTypedefDecl <input.cc, 0, 20> \n" := by
  refine ⟨rfl, by decide, by decide, by decide, by decide, by decide⟩

/-- C5, amended: let `A` be a visited node of the tree of the run.  When `B`
is reached from `A` along a non-empty path of child numbers (`A` a proper
ancestor of `B`), the invocation of `VisitDecl` on `A` comes before the one on
`B`, so that in the output the line of `A` stands before the line of `B`,
strictly so when `A` has a line.  When `S₁` stands before `S₂` in the list of
the children of `A`, the whole traversal of `S₁`, with the lines of `S₁` and
of all its descendants, comes before the traversal of `S₂`, which starts with
the invocation of `VisitDecl` on `S₂`.  Where the children of `A` are listed
by increasing begin offset, this holds of any two children `S₁` and `S₂` with
`S₁` earlier in source order (a smaller begin offset). -/
theorem traversal_is_preorder (Context : ASTContext) (toA : List Nat) (A : Decl)
    (hA : visitedAt Context.getTranslationUnitDecl toA = some A) :
    (∀ (path : List Nat) (B : Decl), path ≠ [] → visitedAt A path = some B →
      ∃ pre mid post : List Emit,
        (HandleTranslationUnit Context).1 =
          pre ++ ⟨"VisitDecl", A, (VisitDecl Context A).1⟩ ::
            (mid ++ ⟨"VisitDecl", B, (VisitDecl Context B).1⟩ :: post) ∧
        stdoutOf (HandleTranslationUnit Context).1 =
          stdoutOf pre ++ ((VisitDecl Context A).1 ++
            (stdoutOf mid ++ ((VisitDecl Context B).1 ++ stdoutOf post))) ∧
        (beginsInMainFile Context A = true → (VisitDecl Context A).1 ≠ "")) ∧
    (∀ (S₁ S₂ : Decl) (before between after : List Decl),
      A.children = before ++ S₁ :: (between ++ S₂ :: after) →
      (∃ pre post : List Emit,
        (HandleTranslationUnit Context).1 =
          pre ++ (walkUp Context A ++
            ((TraverseDeclContextHelper (FindNamedClassVisitor Context) before).1 ++
              ((TraverseDecl (FindNamedClassVisitor Context) S₁).1 ++
                ((TraverseDeclContextHelper (FindNamedClassVisitor Context) between).1 ++
                  ((TraverseDecl (FindNamedClassVisitor Context) S₂).1 ++
                    (TraverseDeclContextHelper (FindNamedClassVisitor Context) after).1)))))
            ++ post) ∧
      (S₂.isImplicit = false →
        ∃ rest : List Emit, (TraverseDecl (FindNamedClassVisitor Context) S₂).1 =
          ⟨"VisitDecl", S₂, (VisitDecl Context S₂).1⟩ :: rest)) ∧
    (A.children.Pairwise (fun x y => beginOffset Context x ≤ beginOffset Context y) →
      ∀ S₁ S₂ : Decl, S₁ ∈ A.children → S₂ ∈ A.children →
        beginOffset Context S₁ < beginOffset Context S₂ →
        ∃ (pre post : List Emit) (before between after : List Decl),
          A.children = before ++ S₁ :: (between ++ S₂ :: after) ∧
          (HandleTranslationUnit Context).1 =
            pre ++ (walkUp Context A ++
              ((TraverseDeclContextHelper (FindNamedClassVisitor Context) before).1 ++
                ((TraverseDecl (FindNamedClassVisitor Context) S₁).1 ++
                  ((TraverseDeclContextHelper (FindNamedClassVisitor Context) between).1 ++
                    ((TraverseDecl (FindNamedClassVisitor Context) S₂).1 ++
                      (TraverseDeclContextHelper (FindNamedClassVisitor Context) after).1)))))
              ++ post) := by
  obtain ⟨preN, postN, hsub⟩ := visited_subtree toA _ A hA
  have hAimp := visitedAt_not_implicit _ _ _ hA
  have htrace : (HandleTranslationUnit Context).1 =
      preN.flatMap (walkUp Context) ++
        ((TraverseDecl (FindNamedClassVisitor Context) A).1 ++
          postN.flatMap (walkUp Context)) := by
    rw [HandleTranslationUnit_eq, TraverseDecl_eq, hsub]
    simp [List.flatMap_append]
  have hsib : ∀ (S₁ S₂ : Decl) (before between after : List Decl),
      A.children = before ++ S₁ :: (between ++ S₂ :: after) →
      (HandleTranslationUnit Context).1 =
        preN.flatMap (walkUp Context) ++ (walkUp Context A ++
          ((TraverseDeclContextHelper (FindNamedClassVisitor Context) before).1 ++
            ((TraverseDecl (FindNamedClassVisitor Context) S₁).1 ++
              ((TraverseDeclContextHelper (FindNamedClassVisitor Context) between).1 ++
                ((TraverseDecl (FindNamedClassVisitor Context) S₂).1 ++
                  (TraverseDeclContextHelper (FindNamedClassVisitor Context) after).1)))))
          ++ postN.flatMap (walkUp Context) := by
    intro S₁ S₂ before between after hch
    rw [htrace, TraverseDecl_visited Context A hAimp, hch, TraverseDeclContextHelper_append,
      TraverseDeclContextHelper_cons, TraverseDeclContextHelper_append,
      TraverseDeclContextHelper_cons]
    simp
  refine ⟨?_, ?_, ?_⟩
  · intro path B hp hAB
    obtain ⟨mid, post, hv⟩ := visited_split path A B hp hAB
    have hT : ∃ midE postE : List Emit,
        (TraverseDecl (FindNamedClassVisitor Context) A).1 =
          ⟨"VisitDecl", A, (VisitDecl Context A).1⟩ ::
            (midE ++ ⟨"VisitDecl", B, (VisitDecl Context B).1⟩ :: postE) := by
      refine ⟨(if A.getKind.isCXXRecordClass then
          [⟨"VisitCXXRecordDecl", A, A.getQualifiedNameAsString ++ "\n"⟩] else [])
          ++ mid.flatMap (walkUp Context),
        (if B.getKind.isCXXRecordClass then
          [⟨"VisitCXXRecordDecl", B, B.getQualifiedNameAsString ++ "\n"⟩] else [])
          ++ post.flatMap (walkUp Context), ?_⟩
      rw [TraverseDecl_eq, hv]
      simp [List.flatMap_cons, List.flatMap_append, walkUp]
    obtain ⟨midE, postE, hT⟩ := hT
    refine ⟨preN.flatMap (walkUp Context), midE,
      postE ++ postN.flatMap (walkUp Context), ?_, ?_, VisitDecl_inside_ne Context A⟩
    · rw [htrace, hT]
      simp
    · rw [htrace, hT]
      simp [stdoutOf_append, stdoutOf_cons, String.append_assoc]
  · intro S₁ S₂ before between after hch
    constructor
    · exact ⟨_, _, hsib S₁ S₂ before between after hch⟩
    · intro hS
      rw [TraverseDecl_visited Context S₂ hS]
      exact ⟨_, rfl⟩
  · intro hord S₁ S₂ h1 h2 hlt
    obtain ⟨before, between, after, hch⟩ :=
      ordered_split (beginOffset Context) A.children hord S₁ S₂ h1 h2 hlt
    exact ⟨_, _, before, between, after, hch, hsib S₁ S₂ before between after hch⟩

/-- Witness of C5, amended, on the `add` example: `add` is child number 2 of
the root, parameter `b` is child number 1 of `add`, the children of `add` are
listed by increasing begin offset and `a` (offset 8) is earlier than `b`
(offset 15); the output has the line of `add`, then the line of `a`, then the
line of `b`. -/
theorem traversal_is_preorder_add :
    visitedAt addContext.getTranslationUnitDecl [2] = some addFunction ∧
    ([1] ≠ [] ∧ visitedAt addFunction [1] = some addParmB) ∧
    addFunction.children = [] ++ addParmA :: ([] ++ addParmB :: []) ∧
    addFunction.children.Pairwise
      (fun x y => beginOffset addContext x ≤ beginOffset addContext y) ∧
    beginOffset addContext addParmA < beginOffset addContext addParmB ∧
    stdoutOf (HandleTranslationUnit addContext).1 =
      "" ++ ("FunctionDecl <input.cc, 0, 38> add 'int (int, int)' \n" ++
        ("ParmVarDecl <input.cc, 8, 12> a 'int' \n" ++
          ("ParmVarDecl <input.cc, 15, 19> b 'int' \n" ++ ""))) ∧
    (∃ pre mid post : List Emit,
      (HandleTranslationUnit addContext).1 =
        pre ++ ⟨"VisitDecl", addFunction, (VisitDecl addContext addFunction).1⟩ ::
          (mid ++ ⟨"VisitDecl", addParmB, (VisitDecl addContext addParmB).1⟩ :: post)) ∧
    (∃ (pre post : List Emit) (before between after : List Decl),
      addFunction.children = before ++ addParmA :: (between ++ addParmB :: after) ∧
      (HandleTranslationUnit addContext).1 =
        pre ++ (walkUp addContext addFunction ++
          ((TraverseDeclContextHelper (FindNamedClassVisitor addContext) before).1 ++
            ((TraverseDecl (FindNamedClassVisitor addContext) addParmA).1 ++
              ((TraverseDeclContextHelper (FindNamedClassVisitor addContext) between).1 ++
                ((TraverseDecl (FindNamedClassVisitor addContext) addParmB).1 ++
                  (TraverseDeclContextHelper (FindNamedClassVisitor addContext) after).1)))))
          ++ post) ∧
    (∃ rest : List Emit, (TraverseDecl (FindNamedClassVisitor addContext) addParmB).1 =
      ⟨"VisitDecl", addParmB, (VisitDecl addContext addParmB).1⟩ :: rest) := by
  have h := traversal_is_preorder addContext [2] addFunction rfl
  have hord : addFunction.children.Pairwise
      (fun x y => beginOffset addContext x ≤ beginOffset addContext y) := by
    simp [addFunction, Decl.children, addParmA, addParmB, beginOffset, addContext,
      plainSourceManager, ASTContext.getSourceManager, Decl.getSourceRange, SourceRange.getBegin]
  refine ⟨rfl, ⟨by decide, rfl⟩, rfl, hord, by decide, by decide, ?_, ?_, ?_⟩
  · obtain ⟨pre, mid, post, h1, _⟩ := h.1 [1] addParmB (by decide) rfl
    exact ⟨pre, mid, post, h1⟩
  · exact h.2.2 hord addParmA addParmB (List.Mem.head _) (List.Mem.tail _ (List.Mem.head _))
      (by decide)
  · exact (h.2.1 addParmA addParmB [] [] [] rfl).2 rfl

/-- Counterexample to C7.  In the run on `#define END \x7d` followed by
`struct S \x7b END;` the record begins at offset 14 of the main file and ends
at the brace the macro expands to, whose file offset is its offset 0 inside
the expansion: the kind line shows 14 and then 0.  In the run on a main file
of 29 bytes that opens `struct S \x7b` and includes a header that closes it,
the end location is outside the main file, at offset 36 of the header: the
kind line shows 0 and then 36.  In the run on a main file of 17 bytes that
invokes a macro of a header, a variable of the expansion begins at offset 33
of the expansion: the kind line shows 33 and then 37. -/
theorem offsets_out_of_order_and_out_of_bounds :
    (macroContext.getSourceManager.isInMainFile macroRecord.getSourceRange.getBegin = true ∧
      VisitDecl macroContext macroRecord = ("CXXRecordDecl <input.cc, 14, 0> \n", true) ∧
      stdoutOf (HandleTranslationUnit macroContext).1 = "CXXRecordDecl <input.cc, 14, 0> \nS\n" ∧
      ¬ (macroContext.getSourceManager.getFileOffset macroRecord.getSourceRange.getBegin ≤
          macroContext.getSourceManager.getFileOffset macroRecord.getSourceRange.getEnd)) ∧
    (tailContext.getSourceManager.isInMainFile tailRecord.getSourceRange.getBegin = true ∧
      tailContext.getSourceManager.isInMainFile tailRecord.getSourceRange.getEnd = false ∧
      VisitDecl tailContext tailRecord = ("CXXRecordDecl <input.cc, 0, 36> \n", true) ∧
      stdoutOf (HandleTranslationUnit tailContext).1 = "CXXRecordDecl <input.cc, 0, 36> \nS\n" ∧
      ¬ (tailContext.getSourceManager.getFileOffset tailRecord.getSourceRange.getEnd ≤ 29)) ∧
    (expandedContext.getSourceManager.isInMainFile expandedVar.getSourceRange.getBegin = true ∧
      VisitDecl expandedContext expandedVar = ("VarDecl <, 33, 37> \n", true) ∧
      stdoutOf (HandleTranslationUnit expandedContext).1 =
        "VarDecl <, 0, 4> \nVarDecl <, 33, 37> \n" ∧
      ¬ (expandedContext.getSourceManager.getFileOffset expandedVar.getSourceRange.getBegin
          ≤ 17)) := by
  refine ⟨⟨by decide, by decide, by decide, by decide⟩,
    ⟨by decide, by decide, by decide, by decide, by decide⟩,
    ⟨by decide, by decide, by decide, by decide⟩⟩

/-- C7, amended: for every kind line of the run, the begin location of the
range of its node is in the main file, and the two numbers of the line are
the file offset the source manager gives for the begin location and the one
it gives for the end location, in this order and in decimal: the line has the
shape `<Kind>Decl <file, begin, end> ...` with these two offsets, and any
reading of the line in that shape, with whatever two numbers and rest, has
these two numbers.  Nothing else holds of them: the code tests the begin
location only, and orders and bounds nothing. -/
theorem offsets_printed_as_resolved (Context : ASTContext) (e : Emit)
    (he : e ∈ (HandleTranslationUnit Context).1) (hk : e.isKindLine = true) :
    Context.getSourceManager.isInMainFile e.node.getSourceRange.getBegin = true ∧
    (∃ fields : String, e.text =
      e.node.getDeclKindName ++ "Decl " ++ "<"
        ++ Context.getSourceManager.getFilename e.node.getSourceRange.getBegin ++ ", "
        ++ toString (Context.getSourceManager.getFileOffset e.node.getSourceRange.getBegin)
        ++ ", "
        ++ toString (Context.getSourceManager.getFileOffset e.node.getSourceRange.getEnd)
        ++ "> " ++ fields ++ "\n") ∧
    (∀ (x y : Nat) (rest : String), e.text =
      e.node.getDeclKindName ++ "Decl " ++ "<"
        ++ Context.getSourceManager.getFilename e.node.getSourceRange.getBegin ++ ", "
        ++ toString x ++ ", " ++ toString y ++ "> " ++ rest →
      x = Context.getSourceManager.getFileOffset e.node.getSourceRange.getBegin ∧
      y = Context.getSourceManager.getFileOffset e.node.getSourceRange.getEnd) := by
  rw [HandleTranslationUnit_eq] at he
  obtain ⟨D, _, hmem⟩ := List.mem_flatMap.1 he
  obtain ⟨hnode, hcase⟩ := mem_walkUp Context D e hmem
  subst hnode
  have htext : e.text = (VisitDecl Context e.node).1 ∧ e.text ≠ "" := by
    rcases hcase with ⟨_, ht⟩ | ⟨hm, _, _⟩
    · refine ⟨ht, ?_⟩
      have hk2 := hk
      simp [Emit.isKindLine] at hk2
      exact hk2.2
    · simp [Emit.isKindLine, hm] at hk
  have hmain : Context.getSourceManager.isInMainFile e.node.getSourceRange.getBegin = true :=
    (VisitDecl_ne_empty_iff Context e.node).1 (htext.1 ▸ htext.2)
  obtain ⟨fields, hshape⟩ := VisitDecl_line_shape Context e.node hmain
  refine ⟨hmain, ⟨fields, htext.1.trans hshape⟩, ?_⟩
  intro x y rest hxy
  have h := hxy.symm.trans (htext.1.trans hshape)
  rw [String.append_assoc _ fields "\n"] at h
  exact offsets_read_back _ x y _ _ rest _ h

/-- Witness of C7, amended, on the `add` example: the invocation of
`VisitDecl` on `add` is part of the run and its text is a kind line; read as
`FunctionDecl <input.cc, 0, 38> ...`, it gives the offsets 0 and 38 of `add`. -/
theorem offsets_printed_as_resolved_add :
    (⟨"VisitDecl", addFunction, "FunctionDecl <input.cc, 0, 38> add 'int (int, int)' \n"⟩ :
        Emit) ∈ (HandleTranslationUnit addContext).1 ∧
    Emit.isKindLine
      ⟨"VisitDecl", addFunction, "FunctionDecl <input.cc, 0, 38> add 'int (int, int)' \n"⟩
        = true ∧
    addContext.getSourceManager.isInMainFile addFunction.getSourceRange.getBegin = true ∧
    (0 = addContext.getSourceManager.getFileOffset addFunction.getSourceRange.getBegin ∧
      38 = addContext.getSourceManager.getFileOffset addFunction.getSourceRange.getEnd) ∧
    (∃ fields : String, "FunctionDecl <input.cc, 0, 38> add 'int (int, int)' \n" =
      addFunction.getDeclKindName ++ "Decl " ++ "<"
        ++ addContext.getSourceManager.getFilename addFunction.getSourceRange.getBegin ++ ", "
        ++ toString (addContext.getSourceManager.getFileOffset addFunction.getSourceRange.getBegin)
        ++ ", "
        ++ toString (addContext.getSourceManager.getFileOffset addFunction.getSourceRange.getEnd)
        ++ "> " ++ fields ++ "\n") := by
  have he : (⟨"VisitDecl", addFunction,
      "FunctionDecl <input.cc, 0, 38> add 'int (int, int)' \n"⟩ : Emit) ∈
      (HandleTranslationUnit addContext).1 := List.Mem.tail _ (List.Mem.head _)
  have h := offsets_printed_as_resolved addContext _ he (by decide)
  exact ⟨he, by decide, h.1, h.2.2 0 38 "add 'int (int, int)' \n" (by decide), h.2.1⟩

/-- C8: `main` returns the success status 0 on every path, whatever the front
end does and whatever `runToolOnCode` returns; with no argument besides the
program name (`argc <= 1`) it writes nothing, and with one it writes what the
single run of `runToolOnCode` on `argv[1]` writes. -/
theorem main_returns_success (fe : FrontEnd) (argv : List String) :
    (main fe argv).2 = 0 ∧
    (argv.length ≤ 1 → (main fe argv).1 = "") ∧
    (1 < argv.length → (main fe argv).1 = (runToolOnCode fe (argv.getD 1 "")).1) := by
  unfold main
  by_cases h : argv.length > 1
  · simp [h, EXIT_SUCCESS]
  · simp [h, EXIT_SUCCESS]

/-- Witness of C8: with the program name alone nothing is written; with the
`add` example as the argument the three lines are written and the status is 0
although `runToolOnCode` returns `false`. -/
theorem main_returns_success_add :
    main addFrontEnd ["flexer"] = ("", 0) ∧
    (runToolOnCode addFrontEnd "int add(int a, int b) \x7b return a + b; \x7d").2 = false ∧
    main addFrontEnd ["flexer", "int add(int a, int b) \x7b return a + b; \x7d"] =
      ("FunctionDecl <input.cc, 0, 38> add 'int (int, int)' \nParmVarDecl <input.cc, 8, 12> a 'int' \nParmVarDecl <input.cc, 15, 19> b 'int' \n", 0) ∧
    (main addFrontEnd ["flexer", "int add(int a, int b) \x7b return a + b; \x7d"]).2 = 0 :=
  ⟨by decide, by decide, by decide,
    (main_returns_success addFrontEnd
      ["flexer", "int add(int a, int b) \x7b return a + b; \x7d"]).1⟩
/-- Counterexample to C10: in the run on the `add` example the first
invocation of `VisitDecl` is the one on the translation unit itself, so the
traversal does not start at the children of the root. -/
theorem reporter_invoked_on_root :
    (∃ rest : List Emit, (HandleTranslationUnit addContext).1 =
      ⟨"VisitDecl", addContext.getTranslationUnitDecl, ""⟩ :: rest) ∧
    ((HandleTranslationUnit addContext).1.filter Emit.isVisitDecl).length = 4 ∧
    ((TraverseDeclContextHelper (FindNamedClassVisitor addContext)
      addContext.getTranslationUnitDecl.children).1.filter Emit.isVisitDecl).length = 3 := by
  refine ⟨⟨_, rfl⟩, by decide, by decide⟩

/-- C10, amended: the traversal starts at the root itself and invokes
`VisitDecl` on it first; for a root that is a translation unit declaration
whose begin location is not in the main file (it has no valid location) this
invocation writes nothing, every other invocation is the one the traversal of
the children makes, and the output is the output of that traversal: only
lines of nodes strictly below the root. -/
theorem root_writes_nothing (Context : ASTContext)
    (hkind : Context.getTranslationUnitDecl.getKind = Kind.TranslationUnit)
    (himplicit : Context.getTranslationUnitDecl.isImplicit = false)
    (hloc : Context.getSourceManager.isInMainFile
      Context.getTranslationUnitDecl.getSourceRange.getBegin = false) :
    (HandleTranslationUnit Context).1 =
      ⟨"VisitDecl", Context.getTranslationUnitDecl, ""⟩ ::
        (TraverseDeclContextHelper (FindNamedClassVisitor Context)
          Context.getTranslationUnitDecl.children).1 ∧
    stdoutOf (HandleTranslationUnit Context).1 =
      stdoutOf (TraverseDeclContextHelper (FindNamedClassVisitor Context)
        Context.getTranslationUnitDecl.children).1 := by
  have h1 : (HandleTranslationUnit Context).1 =
      ⟨"VisitDecl", Context.getTranslationUnitDecl, ""⟩ ::
        (TraverseDeclContextHelper (FindNamedClassVisitor Context)
          Context.getTranslationUnitDecl.children).1 := by
    have hT : (HandleTranslationUnit Context).1 =
        (TraverseDecl (FindNamedClassVisitor Context) Context.getTranslationUnitDecl).1 := rfl
    rw [hT, TraverseDecl_visited Context _ himplicit]
    have hout := VisitDecl_outside Context Context.getTranslationUnitDecl hloc
    simp [walkUp, hkind, Kind.isCXXRecordClass, hout]
  refine ⟨h1, ?_⟩
  rw [h1, stdoutOf_cons]
  simp

/-- Witness of C10, amended, on the `add` example: the root is a translation
unit declaration without a valid location, and the output is that of the
traversal of its children. -/
theorem root_writes_nothing_add :
    addContext.getTranslationUnitDecl.getKind = Kind.TranslationUnit ∧
    addContext.getTranslationUnitDecl.isImplicit = false ∧
    addContext.getSourceManager.isInMainFile
      addContext.getTranslationUnitDecl.getSourceRange.getBegin = false ∧
    stdoutOf (HandleTranslationUnit addContext).1 =
      stdoutOf (TraverseDeclContextHelper (FindNamedClassVisitor addContext)
        addContext.getTranslationUnitDecl.children).1 :=
  ⟨rfl, rfl, by decide, (root_writes_nothing addContext rfl rfl (by decide)).2⟩

end Flexer
